import Mathlib

/-!
Verification of the url-shortner short-link lifecycle subsystem.

Shallow embedding of the Go source:
- `internal/database/database.go`: `SaveShortUrl`, `GetShortUrl`,
  `UpdateTimesClicked`, `DeleteExpiredLinks` over a `DB` state (list of rows),
  with the source's error-classification logic made explicit.
- `internal/server/routes.go`: `redirectUrlHandler`, `shortLinkHandler`,
  modelled as functions producing an ordered trace of emitted events
  (responses written, database calls attempted).

Timestamps are integers (nanoseconds, as in Go `time.Time`/`time.Duration`);
`time.Minute` is the constant 60000000000. External storage failures are an
explicit fault parameter: `DbFault.ok` means the underlying query executes,
`DbFault.pg` means the driver surfaces a Postgres server error (`*pgconn.PgError`,
which covers uniqueness-violation conflicts), `DbFault.conn` means the driver
surfaces a plain error that is neither a `PgError` nor `sql.ErrNoRows`
(for example a connection failure).
-/

namespace UrlShortner

/-- Go `time.Minute` in nanoseconds. -/
def minuteNs : Int := 60000000000

/-- The `ShortUrlModel` struct from `internal/database/models.go`. -/
structure ShortUrlModel where
  id : Int
  link : String
  timesClicked : Int
  expTimeMinutes : Int
  createdAt : Int
  shortCode : String
deriving DecidableEq, Repr

/-- The zero value of `ShortUrlModel` (Go `&ShortUrlModel{}`). -/
def zeroShortUrl : ShortUrlModel :=
  { id := 0, link := "", timesClicked := 0, expTimeMinutes := 0,
    createdAt := 0, shortCode := "" }

/-- The `short_url` table: its rows plus the SERIAL id counter. -/
structure DB where
  rows : List ShortUrlModel
  nextId : Int
deriving DecidableEq, Repr

/-- External outcome of executing a query against the storage layer. -/
inductive DbFault
  | ok
  | pg
  | conn
deriving DecidableEq, Repr

/-- Error values a store operation can hand back to its caller:
a Postgres server error, `sql.ErrNoRows`, or a plain driver error. -/
inductive SqlError
  | pg
  | noRows
  | conn
deriving DecidableEq, Repr

/-- Expiry instant of a record: `created_at + exp_time_minutes * time.Minute`,
as computed both by `redirectUrlHandler` and by the reaper's SQL. -/
def expireAt (m : ShortUrlModel) : Int :=
  m.createdAt + m.expTimeMinutes * minuteNs

/-- First row matching `WHERE short_code = $1`. -/
def findRow (db : DB) (code : String) : Option ShortUrlModel :=
  db.rows.find? (fun r => r.shortCode == code)

/-- Embedding of `service.GetShortUrl`. The source classifies a scan error:
a `*pgconn.PgError` returns `(nil, err)`; `sql.ErrNoRows` returns `(nil, err)`;
any other error falls through both checks, so the function returns the
zero-valued `searched` record together with a nil error. -/
def GetShortUrl (fault : DbFault) (db : DB) (shortCode : String) :
    Except SqlError ShortUrlModel :=
  match fault with
  | .pg => .error .pg
  | .conn => .ok zeroShortUrl
  | .ok =>
    match findRow db shortCode with
    | some r => .ok r
    | none => .error .noRows

/-- Embedding of `service.SaveShortUrl`. The INSERT stores
`(link, 0, exp_time_minutes, short_code)`; the row's `created_at` is set by
the store (`DEFAULT NOW()`), and its id by the SERIAL counter. The RETURNING
clause lists only `id, link, times_clicked, exp_time_minutes, short_code`, so
the scanned `inserted` record keeps the zero `CreatedAt`. A `*pgconn.PgError`
returns `(nil, err)`; any other error falls through the single check and the
function returns the zero-valued `inserted` record with a nil error. -/
def SaveShortUrl (fault : DbFault) (db : DB) (now : Int) (m : ShortUrlModel) :
    Except SqlError ShortUrlModel × DB :=
  match fault with
  | .pg => (.error .pg, db)
  | .conn => (.ok zeroShortUrl, db)
  | .ok =>
    let stored : ShortUrlModel :=
      { id := db.nextId, link := m.link, timesClicked := 0,
        expTimeMinutes := m.expTimeMinutes, createdAt := now,
        shortCode := m.shortCode }
    (.ok { stored with createdAt := 0 },
     { rows := db.rows ++ [stored], nextId := db.nextId + 1 })

/-- Embedding of `service.UpdateTimesClicked`:
`UPDATE short_url SET times_clicked = times_clicked + 1 WHERE short_code = $1`.
Any exec error is returned to the caller unchanged. -/
def UpdateTimesClicked (fault : DbFault) (db : DB) (shortCode : String) :
    Option SqlError × DB :=
  match fault with
  | .pg => (some .pg, db)
  | .conn => (some .conn, db)
  | .ok =>
    (none,
     { db with rows := db.rows.map (fun r =>
         if r.shortCode == shortCode then
           { r with timesClicked := r.timesClicked + 1 }
         else r) })

/-- Embedding of `service.DeleteExpiredLinks`:
`DELETE FROM short_url WHERE NOW() >= created_at + (exp_time_minutes || ' minutes')::interval`.
The `sql.Result` of `Exec` is discarded, so the caller learns only
success or failure, never how many rows were removed. -/
def DeleteExpiredLinks (fault : DbFault) (db : DB) (now : Int) :
    Option SqlError × DB :=
  match fault with
  | .pg => (some .pg, db)
  | .conn => (some .conn, db)
  | .ok =>
    (none, { db with rows := db.rows.filter (fun r => !decide (now ≥ expireAt r)) })

/-- Responses the handlers write: the JSON error/success bodies and the
`http.Redirect` call, each with its HTTP status. -/
inductive HttpResponse
  | jsonMsg (status : Int) (message : String)
  | redirect (status : Int) (location : String)
  | jsonShortUrl (status : Int) (shortUrl : String)
deriving DecidableEq, Repr

/-- Observable steps a handler performs, in program order. -/
inductive Event
  | respond (r : HttpResponse)
  | saveAttempt (code : String)
  | updateClicks (code : String)
deriving DecidableEq, Repr

/-- Embedding of `Server.redirectUrlHandler`. A non-nil error from
`GetShortUrl` of any kind yields the 404 body. Otherwise
`expireAt := entity.CreatedAt.Add(entity.ExpTimeMinutes * time.Minute)` and
`time.Now().After(expireAt)` (a strict comparison) selects the 410 body.
Otherwise the handler redirects (303) to `entity.Link` and only then calls
`UpdateTimesClicked`, whose return value it ignores. -/
def redirectUrlHandler (gFault uFault : DbFault) (db : DB) (now : Int)
    (shortCode : String) : List Event × DB :=
  match GetShortUrl gFault db shortCode with
  | .error _ =>
    ([.respond (.jsonMsg 404 "Did not found a valid url for the short_code")], db)
  | .ok entity =>
    if now > expireAt entity then
      ([.respond (.jsonMsg 410 "Short Link is expired.")], db)
    else
      let upd := UpdateTimesClicked uFault db shortCode
      ([.respond (.redirect 303 entity.link), .updateClicks shortCode], upd.2)

/-- Result of one run of the create handler: the events it performed before
either returning normally or panicking on a nil pointer dereference. -/
structure CreateRun where
  events : List Event
  panicked : Bool
  db : DB
deriving DecidableEq, Repr

/-- Embedding of `Server.shortLinkHandler`. It builds a model from the request
body and one freshly generated 8-character code and calls `SaveShortUrl`
exactly once. On a non-nil error it encodes the 500 body but does not return;
execution continues to `entity.ShortCode` with `entity == nil`, which panics
before any success body is written. On a nil error it writes the 200 body
whose short_url is `baseUrl + r.Host + "/short/" + entity.ShortCode`, with
`baseUrl = "https://"` when `r.URL.Scheme` is non-empty and `"http://"`
otherwise. -/
def shortLinkHandler (sFault : DbFault) (db : DB) (now : Int)
    (reqLink : String) (reqExp : Int) (genCode : String)
    (host : String) (scheme : String) : CreateRun :=
  let m : ShortUrlModel :=
    { id := 0, link := reqLink, timesClicked := 0, expTimeMinutes := reqExp,
      createdAt := 0, shortCode := genCode }
  match SaveShortUrl sFault db now m with
  | (.error _, db2) =>
    { events := [.saveAttempt genCode,
        .respond (.jsonMsg 500 "Something went wrong with generating short url. Try again later")],
      panicked := true, db := db2 }
  | (.ok entity, db2) =>
    let baseUrl := if scheme != "" then "https://" else "http://"
    { events := [.saveAttempt genCode,
        .respond (.jsonShortUrl 200 (baseUrl ++ host ++ "/short/" ++ entity.shortCode))],
      panicked := false, db := db2 }

/-- Recognizes a store-insert attempt in a handler trace. -/
def isSaveAttempt : Event → Bool
  | .saveAttempt _ => true
  | _ => false

/-- A concrete stored record: one-minute TTL, created at time 0. -/
def row0 : ShortUrlModel :=
  { id := 1, link := "https://example.com", timesClicked := 0,
    expTimeMinutes := 1, createdAt := 0, shortCode := "abcdefgh" }

/-- A concrete store holding exactly `row0`. -/
def db0 : DB := { rows := [row0], nextId := 2 }

/-- A record already expired at any positive time (zero TTL, created at 0). -/
def rowExpA : ShortUrlModel :=
  { id := 1, link := "https://a.example", timesClicked := 0,
    expTimeMinutes := 0, createdAt := 0, shortCode := "c1" }

/-- A second record already expired at any positive time. -/
def rowExpB : ShortUrlModel :=
  { id := 2, link := "https://b.example", timesClicked := 3,
    expTimeMinutes := 0, createdAt := 0, shortCode := "c2" }

/-- Incrementing `times_clicked` of the rows matching a code commutes with
row lookup: the first match of the updated list is the updated first match. -/
theorem find?_bumpClicks (rows : List ShortUrlModel) (code : String)
    (r : ShortUrlModel)
    (h : rows.find? (fun x => x.shortCode == code) = some r) :
    (rows.map (fun x =>
        if x.shortCode == code then
          { x with timesClicked := x.timesClicked + 1 }
        else x)).find? (fun x => x.shortCode == code)
      = some { r with timesClicked := r.timesClicked + 1 } := by
  induction rows with
  | nil => simp at h
  | cons a t ih =>
    by_cases hc : (a.shortCode == code) = true
    · rw [@List.find?_cons_of_pos _ (fun x => x.shortCode == code) a t hc] at h
      injection h with hr
      subst hr
      have hmp : ({ a with timesClicked := a.timesClicked + 1 } :
          ShortUrlModel).shortCode == code := by simpa using hc
      simp only [List.map_cons, if_pos hc]
      exact @List.find?_cons_of_pos ShortUrlModel (fun x => x.shortCode == code) _ _ hmp
    · rw [@List.find?_cons_of_neg _ (fun x => x.shortCode == code) a t hc] at h
      simp only [List.map_cons, if_neg hc]
      rw [@List.find?_cons_of_neg _ (fun x => x.shortCode == code) a _ hc]
      exact ih h

/-- Row lookup in an appended list skips a prefix with no match. -/
theorem find?_append_of_none (l1 l2 : List ShortUrlModel)
    (p : ShortUrlModel → Bool) (h : l1.find? p = none) :
    (l1 ++ l2).find? p = l2.find? p := by
  induction l1 with
  | nil => simp
  | cons a t ih =>
    by_cases hc : p a = true
    · rw [@List.find?_cons_of_pos _ p a t hc] at h; cases h
    · rw [@List.find?_cons_of_neg _ p a t hc] at h
      rw [List.cons_append, @List.find?_cons_of_neg _ p a _ hc]
      exact ih h

/-- C1 counterexample: for the stored record `row0` the claim says a
resolution arriving exactly at `created_at + ttl_minutes` is expired, yet
`redirectUrlHandler` (whose check is the strict `time.Now().After(expireAt)`)
redirects to the target and increments `times_clicked`. -/
theorem C1_counterexample :
    redirectUrlHandler .ok .ok db0 (expireAt row0) "abcdefgh"
      = ([.respond (.redirect 303 "https://example.com"), .updateClicks "abcdefgh"],
         { rows := [{ row0 with timesClicked := 1 }], nextId := 2 }) := by
  decide

/-- C1 (amended): resolution yields the expired outcome exactly when `now` is
strictly after `created_at + ttl_minutes`; then no redirect happens and the
store is left unchanged, for every outcome of the click update. At the exact
expiry instant the code still redirects. -/
theorem C1_expired_only_strictly_after (uFault : DbFault) (db : DB) (now : Int)
    (code : String) (r : ShortUrlModel)
    (hfind : findRow db code = some r) (hexp : now > expireAt r) :
    redirectUrlHandler .ok uFault db now code
      = ([.respond (.jsonMsg 410 "Short Link is expired.")], db) := by
  unfold redirectUrlHandler GetShortUrl
  rw [hfind]
  simp [hexp]

/-- C1 witness: one minute past expiry of `row0`, resolution answers 410 and
leaves the store untouched. -/
theorem C1_expired_only_strictly_after_witness :
    findRow db0 "abcdefgh" = some row0
      ∧ expireAt row0 + 1 > expireAt row0
      ∧ redirectUrlHandler .ok .ok db0 (expireAt row0 + 1) "abcdefgh"
        = ([.respond (.jsonMsg 410 "Short Link is expired.")], db0) :=
  ⟨by decide, by decide,
   C1_expired_only_strictly_after .ok db0 (expireAt row0 + 1) "abcdefgh" row0
     (by decide) (by decide)⟩

/-- C2 counterexample: when the lookup fails with a surfaced storage error
(`*pgconn.PgError`, the Unavailable case), the handler answers with the 404
not-found body, not with a server error. -/
theorem C2_counterexample :
    redirectUrlHandler .pg .ok db0 0 "abcdefgh"
      = ([.respond (.jsonMsg 404 "Did not found a valid url for the short_code")], db0) := by
  decide

/-- C2 (amended): a lookup that fails with a surfaced Unavailable error is
conflated with NotFound — the handler answers the 404 body for every store
state, time and code, never a server error. -/
theorem C2_unavailable_answered_notfound (uFault : DbFault) (db : DB)
    (now : Int) (code : String) :
    redirectUrlHandler .pg uFault db now code
      = ([.respond (.jsonMsg 404 "Did not found a valid url for the short_code")], db) :=
  rfl

/-- C3 counterexample: on a Conflict (a `*pgconn.PgError` from the insert,
which covers the uniqueness violation), the create handler performs exactly
one insert attempt and surfaces the user-facing 500 error — no retry with a
newly generated code. -/
theorem C3_counterexample :
    shortLinkHandler .pg db0 5 "https://foo.example" 60 "zzzzzzzz" "localhost:8080" ""
      = { events := [.saveAttempt "zzzzzzzz",
            .respond (.jsonMsg 500 "Something went wrong with generating short url. Try again later")],
          panicked := true, db := db0 } := by
  decide

/-- C3 (amended): the creation path never retries on Conflict: a failing
insert leads to exactly one insert attempt and a user-facing 500 error
response (after which the handler panics on the nil record). -/
theorem C3_conflict_not_retried (db : DB) (now : Int) (link : String)
    (exp : Int) (code host scheme : String) :
    (shortLinkHandler .pg db now link exp code host scheme).events.countP isSaveAttempt = 1
      ∧ Event.respond (.jsonMsg 500 "Something went wrong with generating short url. Try again later")
          ∈ (shortLinkHandler .pg db now link exp code host scheme).events := by
  constructor
  · rfl
  · simp [shortLinkHandler, SaveShortUrl]

/-- C8 counterexample: a concrete successful Create stores `created_at = 12345`
in the row, but the record handed back to the caller carries
`created_at = 0` (the RETURNING clause omits `created_at`), so the returned
record is not fully populated. -/
theorem C8_counterexample :
    (SaveShortUrl .ok { rows := [], nextId := 1 } 12345
        { id := 0, link := "https://example.com", timesClicked := 0,
          expTimeMinutes := 60, createdAt := 0, shortCode := "abcdefgh" }).1
      = .ok { id := 1, link := "https://example.com", timesClicked := 0,
              expTimeMinutes := 60, createdAt := 0, shortCode := "abcdefgh" }
    ∧ (SaveShortUrl .ok { rows := [], nextId := 1 } 12345
        { id := 0, link := "https://example.com", timesClicked := 0,
          expTimeMinutes := 60, createdAt := 0, shortCode := "abcdefgh" }).2.rows
      = [{ id := 1, link := "https://example.com", timesClicked := 0,
           expTimeMinutes := 60, createdAt := 12345, shortCode := "abcdefgh" }] :=
  ⟨rfl, rfl⟩

/-- C8 (amended): a successful Create returns a record populated with the
assigned id, link, times_clicked, exp_time_minutes and short_code, but its
created_at stays the zero timestamp, while the row stored by the store
carries created_at equal to the insert time. -/
theorem C8_returned_record_lacks_created_at (db : DB) (now : Int)
    (m : ShortUrlModel) :
    (SaveShortUrl .ok db now m).1
        = .ok { id := db.nextId, link := m.link, timesClicked := 0,
                expTimeMinutes := m.expTimeMinutes, createdAt := 0,
                shortCode := m.shortCode }
      ∧ (SaveShortUrl .ok db now m).2.rows
        = db.rows ++
            [{ id := db.nextId, link := m.link, timesClicked := 0,
               expTimeMinutes := m.expTimeMinutes, createdAt := now,
               shortCode := m.shortCode }] :=
  ⟨rfl, rfl⟩

/-- C9: when the insert fails with a Postgres error (so `SaveShortUrl`
returns a nil record and a non-nil error), the create handler writes the 500
body and then continues past it, dereferencing the nil record: the run ends
in a panic after exactly the one insert attempt and the 500 response. -/
theorem C9_create_handler_panics_on_store_failure (db : DB) (now : Int)
    (link : String) (exp : Int) (code host scheme : String) :
    shortLinkHandler .pg db now link exp code host scheme
      = { events := [.saveAttempt code,
            .respond (.jsonMsg 500 "Something went wrong with generating short url. Try again later")],
          panicked := true, db := db } :=
  rfl

/-- C4 counterexample: one reaper run removes zero rows and another removes
two rows, yet both hand back exactly the same non-store result (`none`):
`DeleteExpiredLinks` discards the `Exec` result, so no count of removed
records is ever returned. -/
theorem C4_counterexample :
    DeleteExpiredLinks .ok { rows := [], nextId := 1 } 100
        = (none, { rows := [], nextId := 1 })
      ∧ DeleteExpiredLinks .ok { rows := [rowExpA, rowExpB], nextId := 3 } 100
        = (none, { rows := [], nextId := 3 }) := by
  decide

/-- C4 (amended): a successful reaper run deletes exactly the records whose
`created_at + ttl_minutes <= now` (a record survives iff it was there and
`now` is before its expiry), returns success but no count, and a subsequent
lookup of a code all of whose records were reaped yields the no-rows error. -/
theorem C4_reaper_deletes_expired_no_count (db : DB) (now : Int) (code : String)
    (hall : ∀ r ∈ db.rows, r.shortCode = code → now ≥ expireAt r) :
    (∀ r, r ∈ (DeleteExpiredLinks .ok db now).2.rows
        ↔ r ∈ db.rows ∧ now < expireAt r)
      ∧ (DeleteExpiredLinks .ok db now).1 = none
      ∧ GetShortUrl .ok (DeleteExpiredLinks .ok db now).2 code = .error .noRows := by
  refine ⟨?_, rfl, ?_⟩
  · intro r
    unfold DeleteExpiredLinks
    simp [List.mem_filter, not_le]
  · have hnone : findRow (DeleteExpiredLinks .ok db now).2 code = none := by
      unfold findRow DeleteExpiredLinks
      rw [List.find?_eq_none]
      intro x hx hpx
      have hmem := List.mem_filter.mp hx
      have hcode : x.shortCode = code := by simpa using hpx
      have hkept : ¬ now ≥ expireAt x := by simpa using hmem.2
      exact hkept (hall x hmem.1 hcode)
    unfold GetShortUrl
    rw [hnone]

/-- C4 witness: for a store holding one record of code c1 that is expired at
time 100, the reaper run keeps nothing, returns no count, and the subsequent
lookup of c1 yields the no-rows error. -/
theorem C4_reaper_deletes_expired_no_count_witness :
    GetShortUrl .ok (DeleteExpiredLinks .ok { rows := [rowExpA], nextId := 2 } 100).2 "c1"
      = .error .noRows :=
  (C4_reaper_deletes_expired_no_count { rows := [rowExpA], nextId := 2 } 100 "c1"
    (by decide)).2.2

/-- C5: resolving a stored record strictly before `created_at + ttl_minutes`
with the store available issues the 303 redirect to the record's target URL
and increments that record's `times_clicked` by exactly 1. -/
theorem C5_live_resolution_redirects_and_increments (db : DB) (now : Int)
    (code : String) (r : ShortUrlModel)
    (hfind : findRow db code = some r) (hlive : now < expireAt r) :
    (redirectUrlHandler .ok .ok db now code).1
        = [.respond (.redirect 303 r.link), .updateClicks code]
      ∧ findRow (redirectUrlHandler .ok .ok db now code).2 code
        = some { r with timesClicked := r.timesClicked + 1 } := by
  have hnot : ¬ now > expireAt r := lt_asymm hlive
  have key : redirectUrlHandler .ok .ok db now code
      = ([.respond (.redirect 303 r.link), .updateClicks code],
         (UpdateTimesClicked .ok db code).2) := by
    unfold redirectUrlHandler GetShortUrl
    rw [hfind]
    simp [hnot]
  refine ⟨by rw [key], ?_⟩
  rw [key]
  unfold findRow UpdateTimesClicked
  exact find?_bumpClicks db.rows code r hfind

/-- C5 witness: resolving `row0` at time 5, well before its one-minute expiry,
redirects to its target and bumps its click count from 0 to 1. -/
theorem C5_live_resolution_redirects_and_increments_witness :
    (redirectUrlHandler .ok .ok db0 5 "abcdefgh").1
        = [.respond (.redirect 303 "https://example.com"), .updateClicks "abcdefgh"]
      ∧ findRow (redirectUrlHandler .ok .ok db0 5 "abcdefgh").2 "abcdefgh"
        = some { row0 with timesClicked := row0.timesClicked + 1 } :=
  C5_live_resolution_redirects_and_increments db0 5 "abcdefgh" row0
    (by decide) (by decide)

/-- C6: on a live resolution the handler's trace is the redirect response
followed by the click update, for every outcome of the click update: the
redirect is committed to the caller before the click write and a failing
increment never turns it into an error response. -/
theorem C6_redirect_independent_of_increment (uFault : DbFault) (db : DB)
    (now : Int) (code : String) (r : ShortUrlModel)
    (hfind : findRow db code = some r) (hnot : ¬ now > expireAt r) :
    (redirectUrlHandler .ok uFault db now code).1
      = [.respond (.redirect 303 r.link), .updateClicks code] := by
  unfold redirectUrlHandler GetShortUrl
  rw [hfind]
  simp [hnot]

/-- C6 witness: with the click update failing on a plain connection error,
resolving `row0` at time 5 still commits the redirect first and only
response. -/
theorem C6_redirect_independent_of_increment_witness :
    (redirectUrlHandler .ok .conn db0 5 "abcdefgh").1
      = [.respond (.redirect 303 "https://example.com"), .updateClicks "abcdefgh"] :=
  C6_redirect_independent_of_increment .conn db0 5 "abcdefgh" row0
    (by decide) (by decide)

/-- C7: creating a record with a short code not yet in the store and then
looking that code up yields a record whose link and ttl match the inputs and
whose times_clicked is 0 (the id is the assigned one and created_at the
insert time). -/
theorem C7_create_get_roundtrip (db : DB) (now : Int) (m : ShortUrlModel)
    (hfresh : findRow db m.shortCode = none) :
    (SaveShortUrl .ok db now m).1
        = .ok { id := db.nextId, link := m.link, timesClicked := 0,
                expTimeMinutes := m.expTimeMinutes, createdAt := 0,
                shortCode := m.shortCode }
      ∧ GetShortUrl .ok (SaveShortUrl .ok db now m).2 m.shortCode
        = .ok { id := db.nextId, link := m.link, timesClicked := 0,
                expTimeMinutes := m.expTimeMinutes, createdAt := now,
                shortCode := m.shortCode } := by
  refine ⟨rfl, ?_⟩
  have hget : findRow (SaveShortUrl .ok db now m).2 m.shortCode
      = some { id := db.nextId, link := m.link, timesClicked := 0,
               expTimeMinutes := m.expTimeMinutes, createdAt := now,
               shortCode := m.shortCode } := by
    show (db.rows ++
        [({ id := db.nextId, link := m.link, timesClicked := 0,
            expTimeMinutes := m.expTimeMinutes, createdAt := now,
            shortCode := m.shortCode } : ShortUrlModel)]).find?
        (fun r : ShortUrlModel => r.shortCode == m.shortCode)
      = _
    rw [find?_append_of_none _ _ _ hfresh]
    simp [List.find?]
  unfold GetShortUrl
  rw [hget]

/-- C7 witness: creating a record in the empty store at time 7 and looking up
its code returns it with the input link and ttl and zero clicks. -/
theorem C7_create_get_roundtrip_witness :
    (SaveShortUrl .ok { rows := [], nextId := 1 } 7
        { id := 0, link := "https://example.com", timesClicked := 0,
          expTimeMinutes := 60, createdAt := 0, shortCode := "qwertyui" }).1
        = .ok { id := 1, link := "https://example.com", timesClicked := 0,
                expTimeMinutes := 60, createdAt := 0, shortCode := "qwertyui" }
      ∧ GetShortUrl .ok
          (SaveShortUrl .ok { rows := [], nextId := 1 } 7
            { id := 0, link := "https://example.com", timesClicked := 0,
              expTimeMinutes := 60, createdAt := 0, shortCode := "qwertyui" }).2
          "qwertyui"
        = .ok { id := 1, link := "https://example.com", timesClicked := 0,
                expTimeMinutes := 60, createdAt := 7, shortCode := "qwertyui" } :=
  C7_create_get_roundtrip { rows := [], nextId := 1 } 7
    { id := 0, link := "https://example.com", timesClicked := 0,
      expTimeMinutes := 60, createdAt := 0, shortCode := "qwertyui" }
    (by decide)

/-- C10: when the lookup query fails with an error that is neither a Postgres
server error nor the no-rows error, `GetShortUrl` hands back the zero-valued
record with a nil error, and the handler, evaluating expiry against the zero
created_at, answers 410 Expired at any positive time — a storage failure
masked as expiry. -/
theorem C10_plain_failure_masked_as_expired (uFault : DbFault) (db : DB)
    (now : Int) (code : String) (hnow : 0 < now) :
    GetShortUrl .conn db code = .ok zeroShortUrl
      ∧ redirectUrlHandler .conn uFault db now code
        = ([.respond (.jsonMsg 410 "Short Link is expired.")], db) := by
  refine ⟨rfl, ?_⟩
  unfold redirectUrlHandler GetShortUrl
  simp [expireAt, zeroShortUrl, hnow]

/-- C10 witness: at time 1 a resolution whose lookup hits a plain connection
failure is answered 410 Expired. -/
theorem C10_plain_failure_masked_as_expired_witness :
    GetShortUrl .conn db0 "abcdefgh" = .ok zeroShortUrl
      ∧ redirectUrlHandler .conn .ok db0 1 "abcdefgh"
        = ([.respond (.jsonMsg 410 "Short Link is expired.")], db0) :=
  C10_plain_failure_masked_as_expired .ok db0 1 "abcdefgh" (by decide)

end UrlShortner
